import Mathlib

/-!
Verification of the device-lock manager and the binary cache merge engine of
`tools/sh_commands.py` (functions `device_lock_path`, `device_lock`,
`is_device_locked`, and `merge_opencl_binaries`).

The source is Python 2.7: `merge_opencl_binaries` reads each source file as a
numpy `uint8` array, walks it with an integer cursor using `struct.unpack`
("Q" for the 8-byte record count, "i" for the 4-byte key/value lengths,
"<n>s" for the key bytes), accumulates the records into a plain Python 2
`dict` `kvs`, and serializes `kvs.iteritems()` back with `struct.pack`.

Bytes are modelled as `List Nat` (each element a byte value), machine
integers as `Nat`/`Int` with explicit wrap-around where the source wraps.
Fallible steps (`struct.unpack`/`struct.pack` errors, the `mace_check`
failure, the numpy comparison failure) return `Except MergeErr`.
-/

namespace MaceShCommands

/-- A byte string: the contents of a file or of one key/value, one `Nat`
per byte. -/
abbrev Bytes := List Nat

/-- Error outcomes of the merge routine. -/
inductive MergeErr where
  /-- `struct.error`: raised by `struct.unpack` on a buffer whose length does
  not match the format, by `struct.unpack` on an invalid format string such
  as `"-5s"`, and by `struct.pack` on an out-of-range integer. -/
  | structError
  /-- The failure raised by `common.mace_check` at line 427 when two
  occurrences of the platform-info key carry values whose numpy comparison
  is not all-true: the spec's `ConflictingPlatformInfo`. -/
  | conflictingPlatformInfo
  /-- `AttributeError`: numpy comparison of two arrays of different lengths,
  neither of length 1, yields the scalar `False`, and `False.all()` at line
  428 then fails. -/
  | numpyCompareError
  /-- The spec's `MalformedContainer` error kind.  The source never
  produces it: it has no bounds check (spec: "the reference behavior does
  not bound-check and will fault on corrupt input"). -/
  | malformedContainer
deriving DecidableEq, Repr

/-- Little-endian encoding of `n` into exactly `w` bytes (the byte layout
produced by `struct.pack` with native x86 formats "Q" and "i" for
non-negative values). -/
def leEncode : Nat → Nat → Bytes
  | 0, _ => []
  | w + 1, n => n % 256 :: leEncode w (n / 256)

/-- Little-endian decoding of a byte list (the value read by
`struct.unpack` with formats "Q" and "i"). -/
def leDecode : Bytes → Nat
  | [] => 0
  | b :: rest => b + 256 * leDecode rest

/-- Python slice index resolution: a negative index counts from the end,
any index clamps to the array bounds. -/
def pyIdx (a : Bytes) (i : Int) : Int :=
  if i < 0 then max (i + (a.length : Int)) 0 else min i (a.length : Int)

/-- Python/numpy basic slicing `a[i:j]` on a one-dimensional array. -/
def pySlice (a : Bytes) (i j : Int) : Bytes :=
  (a.take (pyIdx a j).toNat).drop (pyIdx a i).toNat

/-- The value of a 4-byte little-endian pattern read as a signed 32-bit
integer (`struct` format "i"). -/
def signed32 (v : Nat) : Int :=
  if v % 2 ^ 32 < 2 ^ 31 then (v % 2 ^ 32 : Nat) else (v % 2 ^ 32 : Nat) - 2 ^ 32

/-- `struct.unpack("Q", buf)`: requires exactly 8 bytes, yields their
little-endian unsigned value. -/
def unpackQ (buf : Bytes) : Except MergeErr Nat :=
  if buf.length = 8 then .ok (leDecode buf) else .error .structError

/-- `struct.unpack("i", buf)`: requires exactly 4 bytes, yields their
little-endian value read as signed 32-bit. -/
def unpackI (buf : Bytes) : Except MergeErr Int :=
  if buf.length = 4 then .ok (signed32 (leDecode buf)) else .error .structError

/-- `struct.unpack(str(n) + "s", buf)`: fails on a negative count (invalid
format string), otherwise requires exactly `n` bytes and yields them. -/
def unpackS (n : Int) (buf : Bytes) : Except MergeErr Bytes :=
  if n < 0 then .error .structError
  else if buf.length = n.toNat then .ok buf else .error .structError

/-- `struct.pack("Q", n)` for the non-negative `n = len(kvs)`: fails when
`n` does not fit 64 bits. -/
def packQ (n : Nat) : Except MergeErr Bytes :=
  if n < 2 ^ 64 then .ok (leEncode 8 n) else .error .structError

/-- `struct.pack("i", n)` for the non-negative `n = len(key)` or
`len(value)`: fails when `n` does not fit a signed 32-bit integer. -/
def packI (n : Nat) : Except MergeErr Bytes :=
  if n < 2 ^ 31 then .ok (leEncode 4 n) else .error .structError

/-- The designated platform-info key
`'mace_opencl_precompiled_platform_info_key'` (line 397), as its ASCII
bytes. -/
def platform_info_key : Bytes :=
  [109, 97, 99, 101, 95, 111, 112, 101, 110, 99, 108, 95,
   112, 114, 101, 99, 111, 109, 112, 105, 108, 101, 100, 95,
   112, 108, 97, 116, 102, 111, 114, 109, 95,
   105, 110, 102, 111, 95, 107, 101, 121]

/-- The accumulator `kvs` viewed as a finite map: the association list of
its entries in first-insertion order (Python dict entries are unique per
key; replacement keeps the key's position, a fresh key is appended). -/
abbrev KVList := List (Bytes × Bytes)

/-- `kvs` lookup: the value stored under key `k`, if any. -/
def kvsFind (kvs : KVList) (k : Bytes) : Option Bytes :=
  (kvs.find? (fun p => p.1 = k)).map (·.2)

/-- `key in kvs`. -/
def kvsContains (kvs : KVList) (k : Bytes) : Bool :=
  (kvsFind kvs k).isSome

/-- `kvs[key]` (meaningful only when the key is present). -/
def kvsGet (kvs : KVList) (k : Bytes) : Bytes :=
  (kvsFind kvs k).getD []

/-- `kvs[key] = value`: replace the value in place when the key is present,
append the entry otherwise. -/
def dictInsert (kvs : KVList) (k v : Bytes) : KVList :=
  if kvsContains kvs k then kvs.map (fun p => if p.1 = k then (k, v) else p)
  else kvs ++ [(k, v)]

/-- `(a == b).all()` on two numpy `uint8` arrays (line 428): with equal
shapes the elementwise comparison, with a length-1 operand broadcasting
against the other (an empty result is vacuously all-true), and otherwise —
incompatible shapes — numpy yields the scalar `False`, whose missing
`.all()` attribute raises. -/
def npEqAll (a b : Bytes) : Except MergeErr Bool :=
  if a.length = b.length then .ok (a == b)
  else
    match a, b with
    | [x], b' => .ok (b'.all (fun c => c == x))
    | a', [y] => .ok (a'.all (fun c => c == y))
    | _, _ => .error .numpyCompareError

/-- Modelled from the spec: `common.mace_check` lives in `common.py`, which
is not under `src/`.  The spec says the merge "fails with
`ConflictingPlatformInfo`" when the check condition is false; on a true
condition execution continues. -/
def mace_check (cond : Bool) : Except MergeErr Unit :=
  if cond then .ok () else .error .conflictingPlatformInfo

/-- Lines 426–434: fold one decoded `(key, value)` record into the
accumulator.  When `key` is the platform-info key and is already present,
run the `mace_check` on the numpy comparison of the stored and the new
value and keep the stored value; otherwise store the new value. -/
def mergeRecord (kvs : KVList) (key value : Bytes) : Except MergeErr KVList :=
  if key = platform_info_key ∧ kvsContains kvs key = true then do
    let b ← npEqAll (kvsGet kvs key) value
    mace_check b
    pure kvs
  else
    pure (dictInsert kvs key value)

/-- Lines 418–435: the `for _ in xrange(size)` loop.  `a` is the whole
file, `idx` the cursor; each iteration unpacks `key_size`, the key,
`value_size`, slices the value, folds the record into the accumulator and
advances the cursor. -/
def readRecords (a : Bytes) : Nat → Int → KVList → Except MergeErr KVList
  | 0, _, kvs => .ok kvs
  | n + 1, idx, kvs => do
    let keySize ← unpackI (pySlice a idx (idx + 4))
    let key ← unpackS keySize (pySlice a (idx + 4) (idx + 4 + keySize))
    let valueSize ← unpackI (pySlice a (idx + 4 + keySize) (idx + 4 + keySize + 4))
    let value := pySlice a (idx + 4 + keySize + 4) (idx + 4 + keySize + 4 + valueSize)
    let kvs' ← mergeRecord kvs key value
    readRecords a n (idx + 4 + keySize + 4 + valueSize) kvs'

/-- Lines 415–435 applied to one file's bytes, continuing from accumulator
`kvs`: unpack the 8-byte record count, then run the record loop from
cursor 8. -/
def parseInto (a : Bytes) (kvs : KVList) : Except MergeErr KVList := do
  let size ← unpackQ (pySlice a 0 8)
  readRecords a size 8 kvs

/-- The spec's `read_container`: parse one container file starting from an
empty accumulator. -/
def read_container (a : Bytes) : Except MergeErr KVList :=
  parseInto a []

/-- Lines 406–435: the loop over source files.  `none` stands for a path
whose file does not exist (`os.path.exists` false, line 408): it is
skipped; each present file is parsed into the shared accumulator. -/
def mergeSources : List (Option Bytes) → KVList → Except MergeErr KVList
  | [], kvs => .ok kvs
  | none :: rest, kvs => mergeSources rest kvs
  | some a :: rest, kvs => do
    let kvs' ← parseInto a kvs
    mergeSources rest kvs'

/-- Lines 440–446: serialize the items in the order given, one record per
item: packed key length, key bytes, packed value length, raw value bytes. -/
def writeRecords : KVList → Except MergeErr Bytes
  | [] => .ok []
  | (k, v) :: rest => do
    let ks ← packI k.length
    let vs ← packI v.length
    let restBytes ← writeRecords rest
    pure (ks ++ k ++ vs ++ v ++ restBytes)

/-- Lines 437–448, the spec's `write_container`: the packed 8-byte entry
count followed by the records of `items`, in the order of `items` (the
order `kvs.iteritems()` yields). -/
def write_container (items : KVList) : Except MergeErr Bytes := do
  let header ← packQ items.length
  let body ← writeRecords items
  pure (header ++ body)

/-- The byte string `write_container` produces when every length fits its
field: one serialized record. -/
def serRecord (k v : Bytes) : Bytes :=
  leEncode 4 k.length ++ k ++ leEncode 4 v.length ++ v

/-- The byte strings of a record list, concatenated. -/
def serRecords : KVList → Bytes
  | [] => []
  | (k, v) :: rest => serRecord k v ++ serRecords rest

/-- A whole serialized container: count field then records. -/
def serContainer (items : KVList) : Bytes :=
  leEncode 8 items.length ++ serRecords items

/-- `os.path.join` for POSIX paths as the source uses it (lines 400, 407). -/
def pathJoin (a b : String) : String :=
  if b.startsWith "/" then b
  else if a = "" ∨ a.endsWith "/" then a ++ b
  else a ++ "/" ++ b

/-! ### The CPython 2.7 `dict`

`kvs = {}` at line 405 is a Python 2 dict and `kvs.iteritems()` at line 440
yields its entries in hash-table order, not insertion order.  The model
below follows CPython 2.7's `stringobject.c` (`string_hash`, with hash
randomization off, its default) and `dictobject.c` (`lookdict_string`,
`insertdict`, `dictresize`, eight slots initially, probe step
`i = 5*i + perturb + 1` with `perturb` shifted right by five each round,
resize at two-thirds fill).  All 64-bit C arithmetic is `Nat` arithmetic
modulo `2 ^ 64`. -/

/-- CPython 2.7 `string_hash` (64-bit build, `_Py_HashSecret` zero): the
unsigned 64-bit bit pattern of the hash of a byte string. -/
def pyStrHash (s : Bytes) : Nat :=
  let x0 := ((s.headD 0) <<< 7) % 2 ^ 64
  let x1 := s.foldl (fun x c => ((1000003 * x) ^^^ c) % 2 ^ 64) x0
  let x2 := (x1 ^^^ s.length) % 2 ^ 64
  if x2 = 2 ^ 64 - 1 then 2 ^ 64 - 2 else x2

/-- The open-addressed hash table behind a Python 2 dict: `slots` has a
power-of-two length, `used` counts occupied slots (with no deletions,
`ma_fill = ma_used`). -/
structure PyDict where
  slots : List (Option (Bytes × Bytes))
  used : Nat
deriving DecidableEq, Repr

/-- A fresh dict: `PyDict_MINSIZE = 8` empty slots. -/
def emptyPyDict : PyDict :=
  { slots := List.replicate 8 none, used := 0 }

/-- CPython's `lookdict_string` probe loop: probe slot `i &&& mask`; stop
at an empty slot or at the key, else continue with
`i = 5*i + perturb + 1 (mod 2^64)` and `perturb >>= 5`.  The fuel bound is
unreachable for a table kept below two-thirds full (after `perturb`
reaches zero the probe is the full-period LCG `i = 5*i + 1`, which visits
every slot). -/
def lookSlotGo (slots : List (Option (Bytes × Bytes))) (k : Bytes) (mask : Nat) :
    Nat → Nat → Nat → Nat
  | 0, i, _ => i &&& mask
  | fuel + 1, i, perturb =>
    let j := i &&& mask
    match slots.getD j none with
    | none => j
    | some (k', _) =>
      if k' = k then j
      else lookSlotGo slots k mask fuel ((5 * i + perturb + 1) % 2 ^ 64) (perturb >>> 5)

/-- The slot at which key `k` with hash pattern `h` lives or would be
placed: first probe at `h &&& mask`, `perturb` starting at `h`. -/
def lookSlot (slots : List (Option (Bytes × Bytes))) (k : Bytes) (h : Nat) : Nat :=
  let mask := slots.length - 1
  lookSlotGo slots k mask (64 + 16 * slots.length) (h &&& mask) h

/-- `dictresize`'s size computation: double from `PyDict_MINSIZE = 8`
until the size exceeds `minused`. -/
def growSizeGo : Nat → Nat → Nat → Nat
  | 0, cur, _ => cur
  | fuel + 1, cur, minused => if cur ≤ minused then growSizeGo fuel (2 * cur) minused else cur

/-- `insertdict_clean` during a resize: place an entry at its probe slot
in the new table. -/
def rawInsert (slots : List (Option (Bytes × Bytes))) (k v : Bytes) :
    List (Option (Bytes × Bytes)) :=
  slots.set (lookSlot slots k (pyStrHash k)) (some (k, v))

/-- `dictresize(mp, minused)`: allocate the doubled-up size and re-insert
every entry, scanning the old table from slot 0. -/
def dictResize (d : PyDict) (minused : Nat) : PyDict :=
  let newsize := growSizeGo 128 8 minused
  let newSlots := d.slots.foldl (fun acc s =>
    match s with
    | none => acc
    | some (k, v) => rawInsert acc k v) (List.replicate newsize none)
  { slots := newSlots, used := d.used }

/-- `PyDict_SetItem`: find the key's slot; replace the value in place when
the key is present, otherwise occupy the empty slot found and resize when
the fill reaches two thirds (`(used > 50000 ? 2 : 4) * used`). -/
def dictSetItem (d : PyDict) (k v : Bytes) : PyDict :=
  let j := lookSlot d.slots k (pyStrHash k)
  match d.slots.getD j none with
  | some _ => { d with slots := d.slots.set j (some (k, v)) }
  | none =>
    let d' : PyDict := { slots := d.slots.set j (some (k, v)), used := d.used + 1 }
    if (d.used + 1) * 3 ≥ d.slots.length * 2 then
      dictResize d' (if d.used + 1 > 50000 then 2 * (d.used + 1) else 4 * (d.used + 1))
    else d'

/-- Dict iteration (`iteritems`): scan the slots from index 0 and yield
the occupied ones. -/
def pyDictItems (d : PyDict) : List (Bytes × Bytes) :=
  d.slots.filterMap id

/-- The sequence `kvs.iteritems()` yields at line 440, reconstructed from
the accumulator's first-insertion-ordered entries: replacements neither
move a key's slot nor resize, so inserting each key's first occurrence in
order with its final value rebuilds the final table. -/
def py2Items (kvs : KVList) : List (Bytes × Bytes) :=
  pyDictItems (kvs.foldl (fun d p => dictSetItem d p.1 p.2) emptyPyDict)

/-- `merge_opencl_binaries` end to end (lines 394–448): resolve each
source path, skip absent files, accumulate the records, and serialize the
accumulator in dict-iteration order.  `fs` maps a path to the bytes of the
file there, or `none` when no file exists. -/
def merge_opencl_binaries (fs : String → Option Bytes)
    (binariesDirs : List String) (clCompiledProgramFileName : String) :
    Except MergeErr Bytes := do
  let sources := binariesDirs.map (fun d =>
    fs (pathJoin (pathJoin d "opencl_bin") clCompiledProgramFileName))
  let kvs ← mergeSources sources []
  write_container (py2Items kvs)

/-! ### The device lock manager (lines 66–79) -/

/-- Line 66: the lock resource path for a device serial. -/
def device_lock_path (serialno : String) : String :=
  "/tmp/device-lock-" ++ serialno

/-- A `filelock.FileLock` as the source configures it: the lock file path
and the acquisition timeout in seconds. -/
structure FileLockSpec where
  path : String
  timeout : ℚ

/-- Line 70: `device_lock(serialno, timeout)`. -/
def device_lock (serialno : String) (timeout : ℚ) : FileLockSpec :=
  { path := device_lock_path serialno, timeout := timeout }

/-- Line 70's default argument: `device_lock(serialno)` with `timeout`
omitted. -/
def device_lock_default (serialno : String) : FileLockSpec :=
  device_lock serialno 3600

/-- `filelock.Timeout`. -/
inductive LockErr where
  | timeout
deriving DecidableEq

/-- Modelled from the spec: `filelock.FileLock` is an external library.
Acquisition on a lock held by another process fails with `Timeout` once
the timeout elapses; on a free lock it succeeds.  `otherHolds` is whether
another process holds the lock file. -/
def fileLockAcquire (_lock : FileLockSpec) (otherHolds : Bool) :
    Except LockErr Unit :=
  if otherHolds then .error .timeout else .ok ()

/-- Modelled from the spec: the `with` statement on a `FileLock` acquires
on entry and releases on every exit path.  The result pairs the body's
value with whether the caller still holds the lock afterwards. -/
def withFileLock {α : Type} (lock : FileLockSpec) (otherHolds : Bool)
    (body : Unit → α) : Except LockErr (α × Bool) := do
  let _ ← fileLockAcquire lock otherHolds
  let r := body ()
  pure (r, false)

/-- The observable outcome of `is_device_locked`: the returned boolean and
whether the probe itself still holds the lock when it returns. -/
structure ProbeOutcome where
  result : Bool
  heldAfter : Bool
deriving DecidableEq

/-- Lines 74–79: probe the device lock with a `0.000001`-second timeout
inside `try`; return `False` from inside the `with` block (which releases
on exit), or `True` on `filelock.Timeout`. -/
def is_device_locked (serialno : String) (otherHolds : Bool) : ProbeOutcome :=
  match withFileLock (device_lock serialno (1 / 1000000)) otherHolds (fun _ => false) with
  | .ok (r, held) => { result := r, heldAfter := held }
  | .error .timeout => { result := true, heldAfter := false }

/-! ## Helper lemmas -/

theorem leEncode_length (w n : Nat) : (leEncode w n).length = w := by
  induction w generalizing n with
  | zero => rfl
  | succ w ih => simp [leEncode, ih]

theorem leDecode_leEncode (w n : Nat) (h : n < 256 ^ w) :
    leDecode (leEncode w n) = n := by
  induction w generalizing n with
  | zero => simp [leEncode, leDecode]; omega
  | succ w ih =>
    have hdiv : n / 256 < 256 ^ w := by
      rw [Nat.div_lt_iff_lt_mul (by norm_num)]
      calc n < 256 ^ (w + 1) := h
        _ = 256 ^ w * 256 := by ring
    simp only [leEncode, leDecode, ih (n / 256) hdiv]
    omega

theorem signed32_small (v : Nat) (h : v < 2 ^ 31) : signed32 v = (v : Int) := by
  have hm : v % 2 ^ 32 = v := Nat.mod_eq_of_lt (by omega)
  rw [signed32, hm, if_pos h]

theorem pyIdx_natCast (a : Bytes) (i : Nat) :
    (pyIdx a (i : Int)).toNat = min i a.length := by
  rw [pyIdx, if_neg (by omega)]
  omega

/-- `pySlice` at a non-negative cursor is drop-then-take. -/
theorem pySlice_natCast (a : Bytes) (i m : Nat) :
    pySlice a (i : Int) ((i : Int) + (m : Int)) = (a.drop i).take m := by
  rw [pySlice, pyIdx_natCast]
  rw [show ((i : Int) + (m : Int)) = ((i + m : Nat) : Int) by push_cast; ring]
  rw [pyIdx_natCast]
  apply List.ext_getElem?
  intro k
  rw [List.getElem?_drop, List.getElem?_take, List.getElem?_take, List.getElem?_drop]
  by_cases hk : k < m
  · rw [if_pos hk]
    by_cases hik : min i a.length + k < min (i + m) a.length
    · rw [if_pos hik]
      have hia : i ≤ a.length := by omega
      rw [Nat.min_eq_left hia]
    · rw [if_neg hik]
      symm
      apply List.getElem?_eq_none
      omega
  · rw [if_neg hk, if_neg (by omega)]

/-- The record count field of a serialized container. -/
theorem pySlice_zero_eight (items : KVList) :
    pySlice (serContainer items) 0 8 = leEncode 8 items.length := by
  have h := pySlice_natCast (serContainer items) 0 8
  norm_num at h
  rw [h, serContainer, List.take_append_eq_append_take, leEncode_length,
    List.take_of_length_le (by rw [leEncode_length])]
  simp

theorem unpackQ_leEncode (n : Nat) (h : n < 2 ^ 64) :
    unpackQ (leEncode 8 n) = .ok n := by
  rw [unpackQ, if_pos (leEncode_length 8 n)]
  rw [leDecode_leEncode 8 n (by norm_num; omega)]

theorem unpackI_leEncode (n : Nat) (h : n < 2 ^ 31) :
    unpackI (leEncode 4 n) = .ok (n : Int) := by
  rw [unpackI, if_pos (leEncode_length 4 n)]
  rw [leDecode_leEncode 4 n (by norm_num; omega), signed32_small n h]

theorem unpackS_self (b : Bytes) : unpackS (b.length : Int) b = .ok b := by
  rw [unpackS, if_neg (by omega), if_pos (by omega)]

theorem take_leEncode_append (w n : Nat) (rest : Bytes) :
    (leEncode w n ++ rest).take w = leEncode w n := by
  rw [List.take_append_eq_append_take, leEncode_length, Nat.sub_self,
    List.take_zero, List.append_nil, List.take_of_length_le (le_of_eq (leEncode_length w n))]

theorem drop_leEncode_append (w n : Nat) (rest : Bytes) :
    (leEncode w n ++ rest).drop w = rest := by
  rw [List.drop_append_eq_append_drop, leEncode_length, Nat.sub_self, List.drop_zero,
    List.drop_eq_nil_of_le (le_of_eq (leEncode_length w n)), List.nil_append]

theorem serRecord_length (k v : Bytes) :
    (serRecord k v).length = 4 + k.length + 4 + v.length := by
  simp [serRecord, leEncode_length]
  omega

theorem kvsFind_append (kvs₁ kvs₂ : KVList) (k : Bytes) :
    kvsFind (kvs₁ ++ kvs₂) k = (kvsFind kvs₁ k).or (kvsFind kvs₂ k) := by
  rw [kvsFind, kvsFind, kvsFind, List.find?_append]
  cases List.find? (fun p => p.1 = k) kvs₁ <;> simp

theorem kvsFind_single_ne (k v q : Bytes) (hne : q ≠ k) : kvsFind [(k, v)] q = none := by
  rw [kvsFind]
  rw [List.find?_cons_of_neg _ (by simp; exact fun h => absurd h.symm hne)]
  rfl

theorem kvsContains_append_single (kvs : KVList) (k v q : Bytes)
    (hq : kvsContains kvs q = false) (hne : q ≠ k) :
    kvsContains (kvs ++ [(k, v)]) q = false := by
  rw [kvsContains, kvsFind_append, kvsFind_single_ne k v q hne]
  rw [kvsContains] at hq
  cases hfind : kvsFind kvs q with
  | some w => rw [hfind] at hq; simp at hq
  | none => rfl

theorem dictInsert_fresh (kvs : KVList) (k v : Bytes) (h : kvsContains kvs k = false) :
    dictInsert kvs k v = kvs ++ [(k, v)] := by
  rw [dictInsert, h]
  simp

theorem mergeRecord_fresh (kvs : KVList) (k v : Bytes) (h : kvsContains kvs k = false) :
    mergeRecord kvs k v = .ok (kvs ++ [(k, v)]) := by
  rw [mergeRecord, if_neg (by simp [h]), dictInsert_fresh kvs k v h]
  rfl

theorem mergeRecord_not_platform (kvs : KVList) (k v : Bytes)
    (h : k ≠ platform_info_key) :
    mergeRecord kvs k v = .ok (dictInsert kvs k v) := by
  rw [mergeRecord, if_neg (by simp [h])]
  rfl

/-- One iteration of the record loop at the start of a serialized record:
unpack its fields, fold it into the accumulator, advance the cursor by the
record's width. -/
theorem readRecords_step (pre tailB k v : Bytes) (n : Nat) (kvs : KVList)
    (hk : k.length < 2 ^ 31) (hv : v.length < 2 ^ 31) :
    readRecords (pre ++ (serRecord k v ++ tailB)) (n + 1) (pre.length : Int) kvs
      = (mergeRecord kvs k v).bind (fun kvs' =>
          readRecords (pre ++ (serRecord k v ++ tailB)) n
            ((pre.length : Int) + ((serRecord k v).length : Int)) kvs') := by
  have e1 : pySlice (pre ++ (serRecord k v ++ tailB)) (pre.length : Int)
      ((pre.length : Int) + 4) = leEncode 4 k.length := by
    have h0 := pySlice_natCast (pre ++ (serRecord k v ++ tailB)) pre.length 4
    push_cast at h0
    rw [h0, List.drop_left]
    simp only [serRecord, List.append_assoc]
    exact take_leEncode_append 4 k.length _
  have e2 : pySlice (pre ++ (serRecord k v ++ tailB)) ((pre.length : Int) + 4)
      ((pre.length : Int) + 4 + (k.length : Int)) = k := by
    have h0 := pySlice_natCast (pre ++ (serRecord k v ++ tailB)) (pre.length + 4) k.length
    push_cast at h0
    rw [h0]
    rw [show pre ++ (serRecord k v ++ tailB)
        = (pre ++ leEncode 4 k.length) ++ (k ++ (leEncode 4 v.length ++ (v ++ tailB))) by
      simp [serRecord, List.append_assoc]]
    rw [show pre.length + 4 = (pre ++ leEncode 4 k.length).length by
      simp [leEncode_length]]
    rw [List.drop_left, List.take_left]
  have e3 : pySlice (pre ++ (serRecord k v ++ tailB)) ((pre.length : Int) + 4 + (k.length : Int))
      ((pre.length : Int) + 4 + (k.length : Int) + 4) = leEncode 4 v.length := by
    have h0 := pySlice_natCast (pre ++ (serRecord k v ++ tailB)) (pre.length + 4 + k.length) 4
    push_cast at h0
    rw [h0]
    rw [show pre ++ (serRecord k v ++ tailB)
        = (pre ++ leEncode 4 k.length ++ k) ++ (leEncode 4 v.length ++ (v ++ tailB)) by
      simp [serRecord, List.append_assoc]]
    rw [show pre.length + 4 + k.length = (pre ++ leEncode 4 k.length ++ k).length by
      simp [leEncode_length]; omega]
    rw [List.drop_left]
    exact take_leEncode_append 4 v.length _
  have e4 : pySlice (pre ++ (serRecord k v ++ tailB))
      ((pre.length : Int) + 4 + (k.length : Int) + 4)
      ((pre.length : Int) + 4 + (k.length : Int) + 4 + (v.length : Int)) = v := by
    have h0 := pySlice_natCast (pre ++ (serRecord k v ++ tailB)) (pre.length + 4 + k.length + 4)
      v.length
    push_cast at h0
    rw [h0]
    rw [show pre ++ (serRecord k v ++ tailB)
        = (pre ++ leEncode 4 k.length ++ k ++ leEncode 4 v.length) ++ (v ++ tailB) by
      simp [serRecord, List.append_assoc]]
    rw [show pre.length + 4 + k.length + 4
        = (pre ++ leEncode 4 k.length ++ k ++ leEncode 4 v.length).length by
      simp [leEncode_length]; omega]
    rw [List.drop_left, List.take_left]
  simp only [readRecords]
  rw [e1, unpackI_leEncode k.length hk]
  simp only [bind, Except.bind]
  rw [e2, unpackS_self k]
  simp only [bind, Except.bind]
  rw [e3, unpackI_leEncode v.length hv]
  simp only [bind, Except.bind]
  rw [e4]
  rw [show ((pre.length : Int) + 4 + (k.length : Int) + 4 + (v.length : Int))
      = (pre.length : Int) + ((serRecord k v).length : Int) by
    rw [serRecord_length]; push_cast; ring]

/-- The record loop over a run of serialized records with keys fresh for
the accumulator and pairwise distinct appends them all, in order. -/
theorem readRecords_serRecords (items : KVList) :
    ∀ (pre tailB : Bytes) (kvs : KVList),
    (∀ p ∈ items, p.1.length < 2 ^ 31) →
    (∀ p ∈ items, p.2.length < 2 ^ 31) →
    (∀ p ∈ items, kvsContains kvs p.1 = false) →
    items.Pairwise (fun p q => p.1 ≠ q.1) →
    readRecords (pre ++ (serRecords items ++ tailB)) items.length (pre.length : Int) kvs
      = .ok (kvs ++ items) := by
  induction items with
  | nil =>
    intro pre tailB kvs _ _ _ _
    simp [readRecords]
  | cons p rest ih =>
    intro pre tailB kvs hk hv hfresh hpair
    obtain ⟨k, v⟩ := p
    cases hpair with
    | cons hhead htail =>
      rw [show pre ++ (serRecords ((k, v) :: rest) ++ tailB)
          = pre ++ (serRecord k v ++ (serRecords rest ++ tailB)) by
        simp [serRecords, List.append_assoc]]
      rw [List.length_cons]
      rw [readRecords_step pre (serRecords rest ++ tailB) k v rest.length kvs
        (hk (k, v) (by simp)) (hv (k, v) (by simp))]
      rw [mergeRecord_fresh kvs k v (hfresh (k, v) (by simp))]
      simp only [Except.bind]
      rw [show pre ++ (serRecord k v ++ (serRecords rest ++ tailB))
          = (pre ++ serRecord k v) ++ (serRecords rest ++ tailB) by
        simp [List.append_assoc]]
      rw [show (pre.length : Int) + ((serRecord k v).length : Int)
          = (((pre ++ serRecord k v).length : Nat) : Int) by
        rw [List.length_append]; push_cast; ring]
      rw [ih (pre ++ serRecord k v) tailB (kvs ++ [(k, v)])
        (fun q hq => hk q (by simp [hq])) (fun q hq => hv q (by simp [hq]))
        (fun q hq => kvsContains_append_single kvs k v q.1 (hfresh q (by simp [hq]))
          (fun he => hhead q hq he.symm))
        htail]
      simp

theorem packI_ok (n : Nat) (h : n < 2 ^ 31) : packI n = .ok (leEncode 4 n) := by
  rw [packI, if_pos h]

theorem packQ_ok (n : Nat) (h : n < 2 ^ 64) : packQ n = .ok (leEncode 8 n) := by
  rw [packQ, if_pos h]

theorem writeRecords_ok (items : KVList)
    (hk : ∀ p ∈ items, p.1.length < 2 ^ 31)
    (hv : ∀ p ∈ items, p.2.length < 2 ^ 31) :
    writeRecords items = .ok (serRecords items) := by
  induction items with
  | nil => rfl
  | cons p rest ih =>
    obtain ⟨k, v⟩ := p
    rw [writeRecords, packI_ok k.length (hk (k, v) (by simp)), packI_ok v.length (hv (k, v) (by simp)),
      ih (fun q hq => hk q (by simp [hq])) (fun q hq => hv q (by simp [hq]))]
    simp only [bind, Except.bind]
    rw [show serRecords ((k, v) :: rest) = serRecord k v ++ serRecords rest from rfl]
    simp only [serRecord, List.append_assoc]
    rfl

theorem write_container_ok (items : KVList)
    (hk : ∀ p ∈ items, p.1.length < 2 ^ 31)
    (hv : ∀ p ∈ items, p.2.length < 2 ^ 31)
    (hcount : items.length < 2 ^ 64) :
    write_container items = .ok (serContainer items) := by
  rw [write_container, packQ_ok items.length hcount, writeRecords_ok items hk hv]
  simp only [bind, Except.bind]
  rw [serContainer]
  rfl

/-- Parsing a whole serialized container whose keys are fresh and
pairwise distinct appends all its records to the accumulator. -/
theorem parseInto_serContainer (items : KVList) (kvs : KVList)
    (hk : ∀ p ∈ items, p.1.length < 2 ^ 31)
    (hv : ∀ p ∈ items, p.2.length < 2 ^ 31)
    (hcount : items.length < 2 ^ 64)
    (hfresh : ∀ p ∈ items, kvsContains kvs p.1 = false)
    (hpair : items.Pairwise (fun p q => p.1 ≠ q.1)) :
    parseInto (serContainer items) kvs = .ok (kvs ++ items) := by
  rw [parseInto, pySlice_zero_eight, unpackQ_leEncode items.length hcount]
  simp only [bind, Except.bind]
  rw [show serContainer items = leEncode 8 items.length ++ (serRecords items ++ []) by
    simp [serContainer]]
  rw [show (8 : Int) = (((leEncode 8 items.length).length : Nat) : Int) by
    simp [leEncode_length]]
  exact readRecords_serRecords items (leEncode 8 items.length) [] kvs hk hv hfresh hpair

/-- Parsing a one-record container folds exactly that record into the
accumulator. -/
theorem parseInto_single (k v : Bytes) (kvs : KVList)
    (hk : k.length < 2 ^ 31) (hv : v.length < 2 ^ 31) :
    parseInto (serContainer [(k, v)]) kvs = mergeRecord kvs k v := by
  rw [parseInto, pySlice_zero_eight, unpackQ_leEncode (List.length [(k, v)]) (by simp)]
  simp only [bind, Except.bind]
  rw [show serContainer [(k, v)] = leEncode 8 (List.length [(k, v)]) ++ (serRecord k v ++ []) by
    simp [serContainer, serRecords]]
  rw [show (8 : Int) = (((leEncode 8 (List.length [(k, v)])).length : Nat) : Int) by
    simp [leEncode_length]]
  rw [show List.length [(k, v)] = 0 + 1 from rfl]
  rw [readRecords_step (leEncode 8 (0 + 1)) [] k v 0 kvs hk hv]
  cases mergeRecord kvs k v with
  | ok kvs' => rfl
  | error e => rfl

theorem land_seven (n : Nat) : n &&& 7 = n % 8 := by
  have h := Nat.and_pow_two_sub_one_eq_mod n 3
  norm_num at h
  exact h

theorem land7_land7 (x : Nat) : (x &&& 7) &&& 7 = x &&& 7 := by
  simp only [land_seven]
  omega

theorem getD_replicate_none {α : Type} (n j : Nat) :
    (List.replicate n (none : Option α)).getD j none = none := by
  rw [List.getD_eq_getElem?_getD, List.getElem?_replicate]
  split <;> rfl

theorem getD_set_ne_replicate (i j : Nat) (e : Bytes × Bytes) (hne : i ≠ j) :
    (((List.replicate 8 (none : Option (Bytes × Bytes)))).set i (some e)).getD j none
      = none := by
  rw [List.getD_eq_getElem?_getD, List.getElem?_set_ne hne, List.getElem?_replicate]
  split <;> rfl

theorem lookSlotGo_empty_hit (slots : List (Option (Bytes × Bytes))) (k : Bytes)
    (mask fuel i perturb : Nat) (hend : slots.getD (i &&& mask) none = none) :
    lookSlotGo slots k mask (fuel + 1) i perturb = i &&& mask := by
  simp only [lookSlotGo]
  rw [hend]

theorem lookSlot_empty_probe (slots : List (Option (Bytes × Bytes))) (k : Bytes) (h : Nat)
    (hlen : slots.length = 8) (hend : slots.getD (h &&& 7) none = none) :
    lookSlot slots k h = h &&& 7 := by
  rw [lookSlot, hlen]
  norm_num
  rw [show (192 : Nat) = 191 + 1 from rfl]
  rw [lookSlotGo_empty_hit slots k 7 191 (h &&& 7) h (by rw [land7_land7, hend])]
  exact land7_land7 h

theorem dictSetItem_empty (k v : Bytes) :
    dictSetItem emptyPyDict k v
      = { slots := (List.replicate 8 none).set (pyStrHash k &&& 7) (some (k, v)),
          used := 1 } := by
  rw [dictSetItem, emptyPyDict]
  rw [lookSlot_empty_probe _ _ _ (by simp) (getD_replicate_none 8 _)]
  rw [getD_replicate_none 8 _]
  simp

theorem dictSetItem_second (k₁ v₁ k₂ v₂ : Bytes)
    (hne : pyStrHash k₁ &&& 7 ≠ pyStrHash k₂ &&& 7) :
    dictSetItem
        { slots := (List.replicate 8 none).set (pyStrHash k₁ &&& 7) (some (k₁, v₁)),
          used := 1 } k₂ v₂
      = { slots := ((List.replicate 8 none).set (pyStrHash k₁ &&& 7) (some (k₁, v₁))).set
            (pyStrHash k₂ &&& 7) (some (k₂, v₂)),
          used := 2 } := by
  rw [dictSetItem]
  rw [lookSlot_empty_probe _ _ _ (by simp) (getD_set_ne_replicate _ _ _ hne)]
  rw [getD_set_ne_replicate _ _ _ hne]
  simp

theorem replicate_set_some {α : Type} (n i : Nat) (a : α) (hi : i < n) :
    (List.replicate n (none : Option α)).set i (some a)
      = List.replicate i none ++ some a :: List.replicate (n - i - 1) none := by
  rw [List.set_eq_take_cons_drop _ (by simp [hi])]
  rw [List.take_replicate, List.drop_replicate]
  rw [Nat.min_eq_left (Nat.le_of_lt hi)]
  rw [show n - (i + 1) = n - i - 1 by omega]

theorem filterMap_id_replicate {α : Type} (n : Nat) :
    (List.replicate n (none : Option α)).filterMap id = [] := by
  simp [List.filterMap_replicate]

theorem filterMap_two_sets {α : Type} (i j : Nat) (a b : α)
    (hj : j < i) (hi : i < 8) :
    (((List.replicate 8 (none : Option α)).set i (some a)).set j (some b)).filterMap id
      = [b, a] := by
  rw [replicate_set_some 8 i a hi, List.set_append]
  rw [List.length_replicate, if_pos hj]
  rw [replicate_set_some i j b hj]
  simp [List.filterMap_append, filterMap_id_replicate, List.filterMap_cons]

theorem py2Items_pair_swap (k₁ v₁ k₂ v₂ : Bytes)
    (hs : pyStrHash k₂ &&& 7 < pyStrHash k₁ &&& 7) :
    py2Items [(k₁, v₁), (k₂, v₂)] = [(k₂, v₂), (k₁, v₁)] := by
  rw [py2Items]
  simp only [List.foldl_cons, List.foldl_nil]
  rw [dictSetItem_empty k₁ v₁, dictSetItem_second k₁ v₁ k₂ v₂ (by omega)]
  rw [pyDictItems]
  exact filterMap_two_sets _ _ _ _ hs (by rw [land_seven]; omega)

theorem py2Items_pair_keep (k₁ v₁ k₂ v₂ : Bytes)
    (hs : pyStrHash k₁ &&& 7 < pyStrHash k₂ &&& 7) :
    py2Items [(k₁, v₁), (k₂, v₂)] = [(k₁, v₁), (k₂, v₂)] := by
  rw [py2Items]
  simp only [List.foldl_cons, List.foldl_nil]
  rw [dictSetItem_empty k₁ v₁, dictSetItem_second k₁ v₁ k₂ v₂ (by omega)]
  rw [pyDictItems]
  rw [List.set_comm _ _ _ (by omega)]
  exact filterMap_two_sets _ _ _ _ hs (by rw [land_seven]; omega)

theorem forall_mem_pair {α : Type} {P : α → Prop} (a b : α)
    (ha : P a) (hb : P b) : ∀ p ∈ [a, b], P p := by
  intro p hp
  rcases List.mem_cons.mp hp with rfl | hp'
  · exact ha
  · rcases List.mem_cons.mp hp' with rfl | hp''
    · exact hb
    · cases hp''

/-! ## Claim theorems -/

/-- Claim C1 (corrected), counterexample: two containers hold the
platform-info key with values `[7]` and `[7, 7]`, which are not
byte-for-byte identical, yet the merge succeeds and keeps `[7]` — numpy
broadcasts the length-1 stored value over the new one and the `.all()`
check passes. -/
theorem platform_value_broadcast_cex :
    mergeSources [some (serContainer [(platform_info_key, [7])]),
      some (serContainer [(platform_info_key, [7, 7])])] []
      = .ok [(platform_info_key, [7])] ∧ ([7] : Bytes) ≠ [7, 7] :=
  ⟨rfl, by decide⟩

/-- Claim C1 (corrected), amended: when the platform-info key is decoded
and already present with stored value `old`, the merge keeps the
accumulator unchanged exactly when the numpy comparison `(old == new).all()`
is true (byte-identical values, or broadcasting against a length-1
operand); it fails with the `mace_check` conflict when the comparison is
false, and aborts with the comparison's own error when the shapes are
incompatible. -/
theorem platform_conflict_check_semantics (kvs : KVList) (v old : Bytes)
    (hmem : kvsContains kvs platform_info_key = true)
    (hold : kvsGet kvs platform_info_key = old) :
    (npEqAll old v = .ok true →
      mergeRecord kvs platform_info_key v = .ok kvs) ∧
    (npEqAll old v = .ok false →
      mergeRecord kvs platform_info_key v = .error .conflictingPlatformInfo) ∧
    (∀ e, npEqAll old v = .error e →
      mergeRecord kvs platform_info_key v = .error e) := by
  subst hold
  refine ⟨fun h => ?_, fun h => ?_, fun e h => ?_⟩ <;>
    rw [mergeRecord, if_pos ⟨rfl, hmem⟩, h] <;> rfl

/-- Claim C1 witness: the hypotheses of
`platform_conflict_check_semantics` hold at a concrete accumulator, and
identical values are kept unchanged. -/
theorem platform_conflict_check_semantics_witness :
    kvsContains [(platform_info_key, [7])] platform_info_key = true ∧
    kvsGet [(platform_info_key, [7])] platform_info_key = [7] ∧
    npEqAll [7] [7] = .ok true ∧
    mergeRecord [(platform_info_key, [7])] platform_info_key [7]
      = .ok [(platform_info_key, [7])] :=
  ⟨by decide, by decide, rfl,
   (platform_conflict_check_semantics [(platform_info_key, [7])] [7] [7]
     (by decide) (by decide)).1 rfl⟩

/-- Claim C2 (code_bug): a container whose declared record count is 1 but
which holds no record bytes fails with `struct.error` (the unpack of a
short buffer), not with the spec's `MalformedContainer` — the source has
no bounds check. -/
theorem truncated_container_struct_error :
    read_container [1, 0, 0, 0, 0, 0, 0, 0] = .error .structError ∧
    MergeErr.structError ≠ MergeErr.malformedContainer :=
  ⟨rfl, by decide⟩

/-- Claim C3 (confirmed): serializing any non-empty mapping with
distinct byte keys whose lengths fit the 4-byte fields and then parsing
the produced container yields the mapping back exactly. -/
theorem write_read_round_trip (items : KVList)
    (_hne : items ≠ [])
    (hpair : items.Pairwise (fun p q => p.1 ≠ q.1))
    (hk : ∀ p ∈ items, p.1.length < 2 ^ 31)
    (hv : ∀ p ∈ items, p.2.length < 2 ^ 31)
    (hcount : items.length < 2 ^ 64)
    (_hbytes : ∀ p ∈ items, (∀ b ∈ p.1, b < 256) ∧ ∀ b ∈ p.2, b < 256) :
    write_container items = .ok (serContainer items) ∧
    read_container (serContainer items) = .ok items := by
  refine ⟨write_container_ok items hk hv hcount, ?_⟩
  rw [read_container]
  have h := parseInto_serContainer items [] hk hv hcount (fun p _ => rfl) hpair
  simpa using h

/-- Claim C3 witness: the round trip at a two-entry mapping with an ASCII
key, a binary key, a binary value and an empty value. -/
theorem write_read_round_trip_witness :
    (([([65], [7, 8]), ([66, 200], [])] : KVList) ≠ []) ∧
    write_container [([65], [7, 8]), ([66, 200], [])]
      = .ok (serContainer [([65], [7, 8]), ([66, 200], [])]) ∧
    read_container (serContainer [([65], [7, 8]), ([66, 200], [])])
      = .ok [([65], [7, 8]), ([66, 200], [])] :=
  ⟨by decide,
   write_read_round_trip [([65], [7, 8]), ([66, 200], [])] (by decide) (by decide)
     (by decide) (by decide) (by decide) (by decide)⟩

/-- Claim C4 (corrected), counterexample: one source container holds key
`'b'` then key `'a'`; the accumulator records them in first-insertion
order `[b, a]`, but the serialized output is in the dict's hash-slot
order, `'a'` (slot 0) before `'b'` (slot 3) — not first-insertion order. -/
theorem merge_output_order_cex :
    merge_opencl_binaries (fun _ => some (serContainer [([98], [66]), ([97], [65])]))
        ["d"] "prog"
      = .ok (serContainer [([97], [65]), ([98], [66])]) ∧
    mergeSources [some (serContainer [([98], [66]), ([97], [65])])] []
      = .ok [([98], [66]), ([97], [65])] ∧
    serContainer [([97], [65]), ([98], [66])] ≠ serContainer [([98], [66]), ([97], [65])] ∧
    merge_opencl_binaries (fun _ => some (serContainer [([98], [66]), ([97], [65])]))
        ["d"] "prog"
      ≠ .ok (serContainer [([98], [66]), ([97], [65])]) := by
  refine ⟨rfl, rfl, by decide, fun h => ?_⟩
  rw [show merge_opencl_binaries (fun _ => some (serContainer [([98], [66]), ([97], [65])]))
        ["d"] "prog"
      = .ok (serContainer [([97], [65]), ([98], [66])]) from rfl] at h
  exact absurd (Except.ok.inj h) (by decide)

/-- Claim C4 (corrected), amended: with two accumulated records whose
keys live in distinct hash slots of the 8-slot table, the output
container is serialized in increasing slot order — which coincides with
first-insertion order only when the first-inserted key has the smaller
slot.  Output bytes are still deterministic for a deterministic input
order. -/
theorem merge_output_slot_order (k₁ v₁ k₂ v₂ : Bytes)
    (hk₁ : k₁.length < 2 ^ 31) (hv₁ : v₁.length < 2 ^ 31)
    (hk₂ : k₂.length < 2 ^ 31) (hv₂ : v₂.length < 2 ^ 31) :
    (pyStrHash k₂ &&& 7 < pyStrHash k₁ &&& 7 →
      write_container (py2Items [(k₁, v₁), (k₂, v₂)])
        = .ok (serContainer [(k₂, v₂), (k₁, v₁)])) ∧
    (pyStrHash k₁ &&& 7 < pyStrHash k₂ &&& 7 →
      write_container (py2Items [(k₁, v₁), (k₂, v₂)])
        = .ok (serContainer [(k₁, v₁), (k₂, v₂)])) := by
  constructor
  · intro hs
    rw [py2Items_pair_swap k₁ v₁ k₂ v₂ hs]
    exact write_container_ok _ (forall_mem_pair _ _ hk₂ hk₁)
      (forall_mem_pair _ _ hv₂ hv₁) (by simp)
  · intro hs
    rw [py2Items_pair_keep k₁ v₁ k₂ v₂ hs]
    exact write_container_ok _ (forall_mem_pair _ _ hk₁ hk₂)
      (forall_mem_pair _ _ hv₁ hv₂) (by simp)

/-- Claim C4 witness: keys `'b'` (slot 3) and `'a'` (slot 0) satisfy the
slot hypothesis, and the output is serialized `'a'` first. -/
theorem merge_output_slot_order_witness :
    (pyStrHash [97] &&& 7 < pyStrHash [98] &&& 7) ∧
    write_container (py2Items [([98], [66]), ([97], [65])])
      = .ok (serContainer [([97], [65]), ([98], [66])]) :=
  ⟨by decide,
   (merge_output_slot_order [98] [66] [97] [65] (by decide) (by decide) (by decide)
     (by decide)).1 (by decide)⟩

/-- Claim C5 (corrected), counterexample: a single container holding the
platform-info key twice with differing one-byte values does not get
last-write-wins — the accumulator is shared across records regardless of
file boundaries, so the equality check fires within one file and the
merge fails. -/
theorem single_file_platform_conflict_cex :
    mergeSources [some (serContainer [(platform_info_key, [0]), (platform_info_key, [1])])] []
      = .error .conflictingPlatformInfo :=
  rfl

/-- Claim C5 (corrected), amended: within a single file, last-write-wins
holds for keys other than the platform-info key. -/
theorem single_file_last_write_wins (k v₁ v₂ : Bytes) (hkP : k ≠ platform_info_key)
    (hk : k.length < 2 ^ 31) (h1 : v₁.length < 2 ^ 31) (h2 : v₂.length < 2 ^ 31) :
    read_container (serContainer [(k, v₁), (k, v₂)]) = .ok [(k, v₂)] := by
  rw [read_container, parseInto, pySlice_zero_eight,
    unpackQ_leEncode (List.length [(k, v₁), (k, v₂)]) (by simp)]
  simp only [bind, Except.bind]
  rw [show serContainer [(k, v₁), (k, v₂)]
      = leEncode 8 (List.length [(k, v₁), (k, v₂)])
          ++ (serRecord k v₁ ++ (serRecord k v₂ ++ [])) by
    simp [serContainer, serRecords, List.append_assoc]]
  rw [show (8 : Int) = (((leEncode 8 (List.length [(k, v₁), (k, v₂)])).length : Nat) : Int) by
    simp [leEncode_length]]
  rw [show List.length [(k, v₁), (k, v₂)] = 1 + 1 from rfl]
  rw [readRecords_step (leEncode 8 (1 + 1))
    (serRecord k v₂ ++ []) k v₁ 1 [] hk h1]
  rw [mergeRecord_fresh [] k v₁ rfl]
  simp only [Except.bind]
  rw [show leEncode 8 (1 + 1)
        ++ (serRecord k v₁ ++ (serRecord k v₂ ++ []))
      = (leEncode 8 (1 + 1) ++ serRecord k v₁)
          ++ (serRecord k v₂ ++ []) by
    simp [List.append_assoc]]
  rw [show (((leEncode 8 (1 + 1)).length : Nat) : Int)
        + ((serRecord k v₁).length : Int)
      = (((leEncode 8 (1 + 1) ++ serRecord k v₁).length : Nat) : Int) by
    rw [List.length_append]; push_cast; ring]
  rw [readRecords_step (leEncode 8 (1 + 1) ++ serRecord k v₁)
    [] k v₂ 0 ([] ++ [(k, v₁)]) hk h2]
  rw [mergeRecord_not_platform ([] ++ [(k, v₁)]) k v₂ hkP]
  have hd : dictInsert ([] ++ [(k, v₁)]) k v₂ = [(k, v₂)] := by
    simp [dictInsert, kvsContains, kvsFind]
  rw [hd]
  rfl

/-- Claim C5 witness: last-write-wins at a concrete non-platform key. -/
theorem single_file_last_write_wins_witness :
    (([1] : Bytes) ≠ platform_info_key) ∧
    read_container (serContainer [([1], [2]), ([1], [3])]) = .ok [([1], [3])] :=
  ⟨by decide,
   single_file_last_write_wins [1] [2] [3] (by decide) (by decide) (by decide) (by decide)⟩

/-- Claim C6 (confirmed): for a key other than the platform-info key held
by two source containers, the value of the later source silently wins. -/
theorem merge_overwrite_last_source_wins (k v₁ v₂ : Bytes) (hkP : k ≠ platform_info_key)
    (hk : k.length < 2 ^ 31) (h1 : v₁.length < 2 ^ 31) (h2 : v₂.length < 2 ^ 31) :
    mergeSources [some (serContainer [(k, v₁)]), some (serContainer [(k, v₂)])] []
      = .ok [(k, v₂)] := by
  rw [mergeSources]
  rw [parseInto_single k v₁ [] hk h1, mergeRecord_fresh [] k v₁ rfl]
  simp only [bind, Except.bind]
  rw [mergeSources]
  rw [parseInto_single k v₂ ([] ++ [(k, v₁)]) hk h2]
  rw [mergeRecord_not_platform ([] ++ [(k, v₁)]) k v₂ hkP]
  have hd : dictInsert ([] ++ [(k, v₁)]) k v₂ = [(k, v₂)] := by
    simp [dictInsert, kvsContains, kvsFind]
  rw [hd]
  simp only [bind, Except.bind]
  rw [mergeSources]

/-- Claim C6 witness: the later source's value at a concrete key. -/
theorem merge_overwrite_last_source_wins_witness :
    (([1] : Bytes) ≠ platform_info_key) ∧
    mergeSources [some (serContainer [([1], [2])]), some (serContainer [([1], [3])])] []
      = .ok [([1], [3])] :=
  ⟨by decide,
   merge_overwrite_last_source_wins [1] [2] [3] (by decide) (by decide) (by decide)
     (by decide)⟩

/-- Claim C7 (confirmed): a source directory whose container file does
not exist is skipped, and the merge result equals the merge of the
remaining sources. -/
theorem merge_skips_missing_source (fs : String → Option Bytes)
    (d : String) (dirs : List String) (name : String)
    (h : fs (pathJoin (pathJoin d "opencl_bin") name) = none) :
    merge_opencl_binaries fs (d :: dirs) name = merge_opencl_binaries fs dirs name := by
  simp only [merge_opencl_binaries, List.map_cons, h, mergeSources]

/-- Claim C7 witness: an empty filesystem satisfies the hypothesis and
the head directory is skipped. -/
theorem merge_skips_missing_source_witness :
    (fun _ : String => (none : Option Bytes)) (pathJoin (pathJoin "d" "opencl_bin") "f")
      = none ∧
    merge_opencl_binaries (fun _ => none) ["d"] "f"
      = merge_opencl_binaries (fun _ => none) [] "f" :=
  ⟨rfl, merge_skips_missing_source (fun _ => none) "d" [] "f" rfl⟩

/-- Claim C8 (confirmed): the probe returns `true` exactly when another
process holds the lock, and never itself holds the lock when it
returns. -/
theorem is_device_locked_probe (serialno : String) (otherHolds : Bool) :
    (is_device_locked serialno otherHolds).result = otherHolds ∧
    (is_device_locked serialno otherHolds).heldAfter = false := by
  cases otherHolds <;> exact ⟨rfl, rfl⟩

/-- Claim C9 (confirmed): distinct device serials map to distinct lock
paths, both through `device_lock_path` and through the lock objects
`device_lock` builds, for any timeouts. -/
theorem device_lock_path_injective (d₁ d₂ : String) (t₁ t₂ : ℚ) (h : d₁ ≠ d₂) :
    device_lock_path d₁ ≠ device_lock_path d₂ ∧
    (device_lock d₁ t₁).path ≠ (device_lock d₂ t₂).path := by
  have core : device_lock_path d₁ ≠ device_lock_path d₂ := by
    intro he
    apply h
    rw [device_lock_path, device_lock_path] at he
    have hdata := congrArg String.data he
    rw [String.data_append, String.data_append] at hdata
    exact String.ext (List.append_cancel_left hdata)
  exact ⟨core, core⟩

/-- Claim C9 witness: two concrete distinct serials give distinct
paths. -/
theorem device_lock_path_injective_witness :
    ("a" : String) ≠ "b" ∧ device_lock_path "a" ≠ device_lock_path "b" :=
  ⟨by decide, (device_lock_path_injective "a" "b" 0 0 (by decide)).1⟩

/-- Claim C10 (confirmed): `device_lock` without an explicit timeout uses
3600 seconds, and an explicit timeout is stored unchanged, together with
the path derived from the serial. -/
theorem device_lock_timeout_default (s : String) (t : ℚ) :
    device_lock_default s = device_lock s 3600 ∧
    (device_lock s t).timeout = t ∧
    (device_lock_default s).timeout = 3600 ∧
    (device_lock s t).path = device_lock_path s :=
  ⟨rfl, rfl, rfl, rfl⟩

end MaceShCommands
